import Mathlib

/-!
Verification development for the page-update checker (src/checker.py).

The script fetches a list of watch targets, normalizes the fetched HTML to
plain text, hashes it, detects changes against a persisted per-target state,
archives snapshots, appends bounded change records, and regenerates an RSS
feed each run.  The definitions below are a shallow embedding of that code:

* `stepTarget` embeds the body of the `for entry in urls` loop of `main`
  (src/checker.py lines 114-174), parametric in the HTML cleaner, the hash
  function and the diff function, which flow through it opaquely.
* `runMain` embeds the tail of `main` (lines 176-184).
* `clean_html` embeds `clean_html` (lines 31-43) over a document-tree model
  of the BeautifulSoup library (which is not part of this repository).
* `unifiedDiff` models Python's `difflib.unified_diff` (standard library,
  not part of this repository) for `n = 3` context lines.
* `generate_feed`, `itemXml`, `esc` embed `generate_feed` (lines 70-106).

Machine floats (`time.time()`) are modelled as rationals; Python string
truthiness (`x or y`, `if old_text:`) is modelled explicitly by `truthyStr`
and `pyOr`.
-/

namespace PageWatcher

/-! ### Python string primitives -/

/-- Python truthiness of an optional string: `None` and `""` are falsy. -/
def truthyStr : Option String → Bool
  | none => false
  | some s => s != ""

/-- Python's `a or b` on optional strings (used as `etag or prev.get("etag")`
in src/checker.py lines 171-172). -/
def pyOr (a b : Option String) : Option String :=
  if truthyStr a then a else b

/-- Characters on which Python's `str.splitlines` splits. -/
def lineBreakChars : List Char :=
  ['\n', '\r', '\x0b', '\x0c', '\x1c', '\x1d', '\x1e', '\u0085', '\u2028', '\u2029']

/-- Worker for `splitlines`; `acc` holds the current line reversed. -/
def splitlinesAux : List Char → List Char → List (List Char)
  | [], acc => if acc.isEmpty then [] else [acc.reverse]
  | '\r' :: '\n' :: rest, acc => acc.reverse :: splitlinesAux rest []
  | c :: rest, acc =>
    if lineBreakChars.contains c then acc.reverse :: splitlinesAux rest []
    else splitlinesAux rest (c :: acc)

/-- Python's `str.splitlines()` (no trailing empty line for a trailing
terminator, `"".splitlines() == []`). -/
def splitlines (s : String) : List String :=
  (splitlinesAux s.data []).map String.mk

/-- Characters stripped by Python's `str.strip()` (whitespace per
`str.isspace`). -/
def isPyWs (c : Char) : Bool :=
  c == ' ' || c == '\t' || c == '\n' || c == '\r' || c == '\x0b' || c == '\x0c' ||
  c == '\x1c' || c == '\x1d' || c == '\x1e' || c == '\x1f' || c == '\u0085' ||
  c == '\u00a0' || c == '\u1680' || c == '\u2000' || c == '\u2001' || c == '\u2002' ||
  c == '\u2003' || c == '\u2004' || c == '\u2005' || c == '\u2006' || c == '\u2007' ||
  c == '\u2008' || c == '\u2009' || c == '\u200a' || c == '\u2028' || c == '\u2029' ||
  c == '\u202f' || c == '\u205f' || c == '\u3000'

/-- Python's `str.strip()` on a character list. -/
def pyStrip (l : List Char) : List Char :=
  ((l.dropWhile isPyWs).reverse.dropWhile isPyWs).reverse

/-! ### The normalizer's whitespace passes (src/checker.py lines 41-42) -/

/-- Horizontal whitespace recognized by the regex `[ \t]+`. -/
def isHT (c : Char) : Bool := c == ' ' || c == '\t'

mutual

/-- Embeds `re.sub(r"[ \t]+", " ", text)`: every maximal run of spaces/tabs
becomes a single space. -/
def collapseH : List Char → List Char
  | [] => []
  | c :: cs => if isHT c then ' ' :: skipH cs else c :: collapseH cs

/-- Skip the rest of a horizontal-whitespace run already replaced by one
space. -/
def skipH : List Char → List Char
  | [] => []
  | c :: cs => if isHT c then skipH cs else c :: collapseH cs

end

mutual

/-- Embeds `re.sub(r"\n{2,}", "\n", text)`: every maximal run of two or more
newlines becomes a single newline (a single newline is kept as is, so runs of
newlines collapse to one). -/
def collapseN : List Char → List Char
  | [] => []
  | c :: cs => if c == '\n' then '\n' :: skipN cs else c :: collapseN cs

/-- Skip the rest of a newline run already replaced by one newline. -/
def skipN : List Char → List Char
  | [] => []
  | c :: cs => if c == '\n' then skipN cs else c :: collapseN cs

end

/-- The whitespace normalization tail of `clean_html` (src/checker.py lines
41-42): collapse horizontal whitespace, collapse newline runs, strip. -/
def normalizeText (s : String) : String :=
  String.mk (pyStrip (collapseN (collapseH s.data)))

/-! ### XML escaping (src/checker.py lines 83-84) -/

/-- Python's `str.replace` for a single-character needle: every occurrence of
`t` is replaced by `r`. -/
def replace1 (t : Char) (r : List Char) : List Char → List Char
  | [] => []
  | c :: cs => if c = t then r ++ replace1 t r cs else c :: replace1 t r cs

/-- Embeds `esc` from `generate_feed`:
`s.replace("&","&amp;").replace("<","&lt;").replace(">","&gt;")`. -/
def escL (l : List Char) : List Char :=
  replace1 '>' "&gt;".data (replace1 '<' "&lt;".data (replace1 '&' "&amp;".data l))

/-- `esc` on strings. -/
def esc (s : String) : String := String.mk (escL s.data)

/-- Character-wise escaping, following the spec's words: every occurrence of
`&`, `<`, `>` is replaced by its entity, all other characters are kept. -/
def escChar (c : Char) : List Char :=
  if c = '&' then "&amp;".data
  else if c = '<' then "&lt;".data
  else if c = '>' then "&gt;".data
  else [c]

/-- Character-wise escaping of a whole list (spec-side definition, to be
compared with `escL`). -/
def escCharwise : List Char → List Char
  | [] => []
  | c :: cs => escChar c ++ escCharwise cs

/-- Occurrence test: `begMatch pat l` is true iff `pat` is an initial
segment of `l`. -/
def begMatch : List Char → List Char → Bool
  | [], _ => true
  | _ :: _, [] => false
  | p :: ps, c :: cs => p == c && begMatch ps cs

/-- `segIn pat l` is true iff `pat` occurs contiguously inside `l`. -/
def segIn (pat : List Char) : List Char → Bool
  | [] => begMatch pat []
  | c :: cs => begMatch pat (c :: cs) || segIn pat cs

/-! ### Diff preview truncation (src/checker.py lines 151-157) -/

/-- The truncation marker line appended by the preview loop. -/
def truncMarker : String := "... (diff truncated)"

/-- The preview loop of `main`: `for i, line in enumerate(diff): if i > 20:
append marker; break; append line`, starting at index `i`. -/
def previewGo : Nat → List String → List String
  | _, [] => []
  | i, line :: rest =>
    if i > 20 then [truncMarker] else line :: previewGo (i + 1) rest

/-- The diff preview built by `main` from the full diff line list. -/
def buildPreview (diff : List String) : List String := previewGo 0 diff

/-! ### Change summary (src/checker.py lines 142-157) -/

/-- Embeds the summary computation of `main`: the fixed fallback unless
`old_text` is truthy, in which case the joined truncated diff preview (or the
fallback again if the join is empty: `"\n".join(preview) or "Content
changed."`). `udiff` stands for `difflib.unified_diff`. -/
def summaryOf (udiff : List String → List String → List String)
    (old : Option String) (text : String) : String :=
  if truthyStr old then
    let preview := buildPreview (udiff (splitlines (old.getD "")) (splitlines text))
    let joined := String.intercalate "\n" preview
    if joined == "" then "Content changed." else joined
  else "Content changed."

/-! ### Data model (spec section 3, src/checker.py) -/

/-- A watch target, one entry of `urls.json` (`entry` in `main`). -/
structure TargetEntry where
  id : String
  url : String
  title : Option String := none
  selector : Option String := none
deriving DecidableEq

/-- Per-target persisted state, one value of `state.json` (`prev` /
`state[uid]` in `main`); a missing key is a missing record. -/
structure TState where
  hash : Option String := none
  etag : Option String := none
  last_modified : Option String := none
  last_text_file : Option String := none
deriving DecidableEq

/-- One change-log entry (`changes.append({...})` in `main`, line 159). -/
structure ChangeRecord where
  id : String
  url : String
  title : String
  timestamp : ℚ
  hash : String
  summary : Option String := none
deriving DecidableEq

/-- The parts of an HTTP response that `main` consumes: status code, the two
caching-validator headers, and the body text. -/
structure Response where
  status_code : Nat
  etag : Option String := none
  last_modified : Option String := none
  text : String := ""
deriving DecidableEq

/-- Snapshot directory contents: `(target id, file name) ↦ file text`; a
write prepends and shadows (overwrite semantics of `Path.write_text`). -/
def writeFS (fs : List ((String × String) × String)) (uid name content : String) :
    List ((String × String) × String) :=
  ((uid, name), content) :: fs

/-- Read a snapshot file, `none` when absent (`.exists()` + `read_text`). -/
def readFS (fs : List ((String × String) × String)) (uid name : String) : Option String :=
  fs.lookup (uid, name)

/-- `state.get(uid, {})` followed by `prev.get(...)` accesses. -/
def getState (st : List (String × TState)) (uid : String) : TState :=
  (st.lookup uid).getD {}

/-- `state[uid] = {...}`: later bindings shadow earlier ones. -/
def setState (st : List (String × TState)) (uid : String) (v : TState) :
    List (String × TState) :=
  (uid, v) :: st

/-- Python's `int()` applied to a nonnegative-or-not rational: truncation
toward zero (`int(ts)` in src/checker.py lines 139-140, 166, 81). -/
def intTs (q : ℚ) : ℤ := q.num.tdiv q.den

/-- Name of the normalized-text snapshot written for timestamp `ts`. -/
def newTxtName (ts : ℚ) : String := toString (intTs ts) ++ ".txt"

/-- Name of the raw-HTML snapshot written for timestamp `ts`. -/
def newHtmlName (ts : ℚ) : String := toString (intTs ts) ++ ".html"

/-- Embeds lines 143-145 of src/checker.py: the previous snapshot text, or
`none` when the pointer is falsy or the file does not exist. -/
def readOldText (fs : List ((String × String) × String)) (uid : String) (prev : TState) :
    Option String :=
  if truthyStr prev.last_text_file then readFS fs uid (prev.last_text_file.getD "")
  else none

/-- The mutable state of one run of `main`: the in-memory `state` dict, the
in-memory `changes` list, the snapshot directory, and `something_changed`. -/
structure RunState where
  state : List (String × TState)
  changes : List ChangeRecord
  fs : List ((String × String) × String)
  something_changed : Bool
deriving DecidableEq

/-- Embeds the body of the `for entry in urls` loop of `main`
(src/checker.py lines 114-174) for one target.  `clean` stands for
`clean_html`, `sha` for `sha256`, `udiff` for `difflib.unified_diff`, `ts`
for the `time.time()` value drawn for this target. -/
def stepTarget (clean : String → Option String → String) (sha : String → String)
    (udiff : List String → List String → List String)
    (entry : TargetEntry) (resp : Response) (ts : ℚ) (rs : RunState) : RunState :=
  if resp.status_code = 304 then rs
  else if ¬(200 ≤ resp.status_code ∧ resp.status_code < 300) then rs
  else
    let uid := entry.id
    let prev := getState rs.state uid
    let text := clean resp.text entry.selector
    let h := sha text
    if prev.hash ≠ some h then
      let fs2 := writeFS (writeFS rs.fs uid (newTxtName ts) text) uid (newHtmlName ts) resp.text
      let old := readOldText fs2 uid prev
      { state := setState rs.state uid
          { hash := some h, etag := resp.etag, last_modified := resp.last_modified,
            last_text_file := some (newTxtName ts) },
        changes := rs.changes ++
          [{ id := uid, url := entry.url, title := entry.title.getD entry.url,
             timestamp := ts, hash := h, summary := some (summaryOf udiff old text) }],
        fs := fs2,
        something_changed := true }
    else
      { rs with state := setState rs.state uid
                  { hash := some h, etag := pyOr resp.etag prev.etag,
                    last_modified := pyOr resp.last_modified prev.last_modified,
                    last_text_file := prev.last_text_file } }

/-- One target's worth of run input: the configured entry, the response its
fetch produced, and the clock value read if it changes. -/
structure RunInput where
  entry : TargetEntry
  resp : Response
  ts : ℚ
deriving DecidableEq

/-- The `for entry in urls` loop of `main`. -/
def runLoop (clean : String → Option String → String) (sha : String → String)
    (udiff : List String → List String → List String) :
    List RunInput → RunState → RunState
  | [], rs => rs
  | inp :: rest, rs =>
    runLoop clean sha udiff rest (stepTarget clean sha udiff inp.entry inp.resp inp.ts rs)

/-! ### Sorting the change log (src/checker.py lines 71, 177) -/

/-- Stable descending insertion by timestamp: the new element goes after all
existing elements with an equal-or-larger key that precede it. -/
def insertDesc (c : ChangeRecord) : List ChangeRecord → List ChangeRecord
  | [] => [c]
  | x :: xs =>
    if x.timestamp ≤ c.timestamp then c :: x :: xs else x :: insertDesc c xs

/-- `sorted(changes, key=lambda c: c["timestamp"], reverse=True)`: Python's
sort is stable, so its output is exactly this stable descending sort. -/
def sortDescTs : List ChangeRecord → List ChangeRecord
  | [] => []
  | c :: cs => insertDesc c (sortDescTs cs)

/-- Sortedness by timestamp, newest first. -/
def SortedDesc (l : List ChangeRecord) : Prop :=
  List.Pairwise (fun a b => b.timestamp ≤ a.timestamp) l

/-! ### Feed generation (src/checker.py lines 70-106) -/

/-- The guid built for a change record: `f"{c['id']}:{int(c['timestamp'])}"`
(src/checker.py line 81). -/
def guidOf (c : ChangeRecord) : String :=
  c.id ++ ":" ++ toString (intTs c.timestamp)

/-- The `<item>` block built for one change record inside `generate_feed`
(src/checker.py lines 77-93).  `rfc` stands for `rfc2822_now`. -/
def itemXml (rfc : ℚ → String) (c : ChangeRecord) : String :=
  "  <item>\n    <title>" ++ esc (c.title ++ " changed") ++
  "</title>\n    <link>" ++ esc c.url ++
  "</link>\n    <guid isPermaLink=\"false\">" ++ esc (guidOf c) ++
  "</guid>\n    <pubDate>" ++ rfc c.timestamp ++
  "</pubDate>\n    <description>" ++ esc (c.summary.getD "Content changed.") ++
  "</description>\n  </item>"

/-- The records rendered into the feed: the top 100 by timestamp descending
(src/checker.py line 71). -/
def feedItems (changes : List ChangeRecord) : List ChangeRecord :=
  (sortDescTs changes).take 100

/-- Embeds `generate_feed` (src/checker.py lines 70-106); `now` is the build
time passed to `rfc2822_now()`. -/
def generate_feed (rfc : ℚ → String) (now : ℚ) (changes : List ChangeRecord) : String :=
  "<?xml version=\"1.0\" encoding=\"UTF-8\"?>\n<rss version=\"2.0\">\n<channel>\n  <title>Page Update Checker</title>\n  <link></link>\n  <description>RSS feed of diffs detected by the GitHub Actions watcher.</description>\n  <lastBuildDate>" ++
  rfc now ++ "</lastBuildDate>\n" ++
  String.intercalate "\n" ((feedItems changes).map (itemXml rfc)) ++
  "\n</channel>\n</rss>\n"

/-! ### A whole run (src/checker.py lines 108-184) -/

/-- The persisted artifacts a run starts from and leaves behind:
`state.json`, `changes.json`, and the snapshot directory. -/
structure Files where
  state : List (String × TState)
  changes : List ChangeRecord
  fs : List ((String × String) × String)
deriving DecidableEq

/-- What one invocation of `main` produces: the files afterwards, the
change-log contents written this run (`none` when nothing changed and the
log file was not rewritten), and the regenerated feed document. -/
structure RunResult where
  newFiles : Files
  written : Option (List ChangeRecord)
  feed : String
deriving DecidableEq

/-- The in-memory state at the top of `main` (lines 109-112). -/
def initRS (files : Files) : RunState :=
  { state := files.state, changes := files.changes, fs := files.fs,
    something_changed := false }

/-- Embeds `main` (src/checker.py lines 108-184): run the loop, then either
truncate-sort-persist and regenerate the feed from the truncated log, or
leave the files untouched and regenerate the feed from the loaded log. -/
def runMain (clean : String → Option String → String) (sha : String → String)
    (udiff : List String → List String → List String)
    (rfc : ℚ → String) (now : ℚ) (files : Files) (inputs : List RunInput) : RunResult :=
  let rs := runLoop clean sha udiff inputs (initRS files)
  if rs.something_changed then
    let changes2 := (sortDescTs rs.changes).take 1000
    { newFiles := { state := rs.state, changes := changes2, fs := rs.fs },
      written := some changes2,
      feed := generate_feed rfc now changes2 }
  else
    { newFiles := { state := files.state, changes := files.changes, fs := rs.fs },
      written := none,
      feed := generate_feed rfc now rs.changes }

/-- One scheduled invocation's inputs. -/
structure RunSpec where
  inputs : List RunInput
  now : ℚ
deriving DecidableEq

/-- Iterated runs, collecting every change-log file content actually written
along the way. -/
def runManyWrites (clean : String → Option String → String) (sha : String → String)
    (udiff : List String → List String → List String) (rfc : ℚ → String) :
    Files → List RunSpec → List (List ChangeRecord)
  | _, [] => []
  | files, spec :: rest =>
    let r := runMain clean sha udiff rfc spec.now files spec.inputs
    (match r.written with | some l => [l] | none => []) ++
      runManyWrites clean sha udiff rfc r.newFiles rest

/-! ### Document-tree model of BeautifulSoup, and `clean_html`
(src/checker.py lines 31-43)

Modelled from the spec: the BeautifulSoup HTML parser is not part of this
repository; a parsed page is modelled as a tree of elements and text nodes,
`soup.select_one(selector)` as the first element in document order matched
by an abstract selector predicate, `tag.decompose()` for
script/style/noscript as dropping those subtrees, and `soup.get_text("\n")`
as joining every text node with a newline. -/

/-- A parsed HTML document: an element with a tag and children, or a text
node. -/
inductive Node where
  | text : String → Node
  | elem : String → List Node → Node

/-- Tags removed by `for tag in soup(["script", "style", "noscript"]):
tag.decompose()`. -/
def badTags : List String := ["script", "style", "noscript"]

mutual

/-- All text-node strings of a tree, in document order (the strings joined
by `get_text`). -/
def texts : Node → List String
  | .text s => [s]
  | .elem _ cs => textsList cs

/-- `texts` over a forest. -/
def textsList : List Node → List String
  | [] => []
  | n :: ns => texts n ++ textsList ns

end

mutual

/-- Drop every subtree rooted at a script/style/noscript element
(`tag.decompose()`); `none` when the node itself is dropped. -/
def stripBad : Node → Option Node
  | .text s => some (.text s)
  | .elem t cs => if t ∈ badTags then none else some (.elem t (stripBadList cs))

/-- `stripBad` over a forest. -/
def stripBadList : List Node → List Node
  | [] => []
  | n :: ns =>
    (match stripBad n with
     | none => []
     | some m => [m]) ++ stripBadList ns

end

mutual

/-- First element (in document order) satisfying the selector predicate,
searching a node and its descendants. -/
def selectNode (p : Node → Bool) : Node → Option Node
  | .text _ => none
  | .elem t cs => if p (.elem t cs) then some (.elem t cs) else selectList p cs

/-- `selectNode` over a forest. -/
def selectList (p : Node → Bool) : List Node → Option Node
  | [] => none
  | n :: ns =>
    match selectNode p n with
    | some m => some m
    | none => selectList p ns

end

/-- `soup.select_one(selector)`: first match among the document's
descendants (the document node itself is not a candidate). -/
def selectIn (p : Node → Bool) : Node → Option Node
  | .text _ => none
  | .elem _ cs => selectList p cs

mutual

/-- The text-node strings that survive script/style/noscript removal
(spec-side definition, to be compared with `texts` after `stripBad`). -/
def goodTexts : Node → List String
  | .text s => [s]
  | .elem t cs => if t ∈ badTags then [] else goodTextsList cs

/-- `goodTexts` over a forest. -/
def goodTextsList : List Node → List String
  | [] => []
  | n :: ns => goodTexts n ++ goodTextsList ns

end

/-- `get_text("\n")` of an optional tree (empty when the whole tree was
decomposed). -/
def joinTexts : Option Node → String
  | none => ""
  | some n => String.intercalate "\n" (texts n)

/-- Embeds `clean_html` (src/checker.py lines 31-43) over the document-tree
model: select the scope (empty output when the selector matches nothing),
decompose script/style/noscript, extract text joined by newlines, collapse
horizontal whitespace, collapse newline runs, strip. -/
def clean_html (sel : Option (Node → Bool)) (doc : Node) : String :=
  match sel with
  | some p =>
    match selectIn p doc with
    | none => ""
    | some t => normalizeText (joinTexts (stripBad t))
  | none => normalizeText (joinTexts (stripBad doc))

/-! ### Model of `difflib.unified_diff`

Modelled from the spec: `difflib` is the Python standard library, not part
of this repository.  The spec calls for "a line-oriented unified diff
between previous and current normalized text".  The model follows
`difflib.SequenceMatcher` without junk heuristics (the autojunk heuristic
only triggers for sequences of 200+ lines) and `difflib.unified_diff` with
3 lines of context, `fromfile="before"`, `tofile="after"`, `lineterm=""`,
as called in src/checker.py lines 147-150. -/

/-- Length of the longest common initial run of two line lists. -/
def commonRun : List String → List String → Nat
  | x :: xs, y :: ys => if x == y then commonRun xs ys + 1 else 0
  | _, _ => 0

/-- Python slice `l[i:j]`. -/
def slice (l : List String) (i j : Nat) : List String := (l.take j).drop i

/-- Matching-run length of `a[i:ahi]` against `b[j:bhi]` starting exactly at
`(i, j)`. -/
def matchLenAt (a b : List String) (i j ahi bhi : Nat) : Nat :=
  commonRun (slice a i ahi) (slice b j bhi)

/-- `SequenceMatcher.find_longest_match` on `a[alo:ahi]`, `b[blo:bhi]`: the
longest matching block, ties broken by the earliest start in `a`, then the
earliest start in `b`; `(alo, blo, 0)` when there is none. -/
def findLongest (a b : List String) (alo ahi blo bhi : Nat) : Nat × Nat × Nat :=
  (List.range' alo (ahi - alo)).foldl
    (fun best i =>
      (List.range' blo (bhi - blo)).foldl
        (fun best j =>
          let k := matchLenAt a b i j ahi bhi
          if k > best.2.2 then (i, j, k) else best)
        best)
    (alo, blo, 0)

/-- The recursive divide step of `SequenceMatcher.get_matching_blocks`,
collecting blocks in order; `fuel` bounds the recursion depth (the interval
sizes shrink strictly, so `|a| + |b| + 1` is always enough). -/
def blocksAux (a b : List String) : Nat → Nat → Nat → Nat → Nat → List (Nat × Nat × Nat)
  | 0, _, _, _, _ => []
  | fuel + 1, alo, ahi, blo, bhi =>
    let r := findLongest a b alo ahi blo bhi
    if r.2.2 = 0 then []
    else
      blocksAux a b fuel alo r.1 blo r.2.1 ++
        r :: blocksAux a b fuel (r.1 + r.2.2) ahi (r.2.1 + r.2.2) bhi

/-- Merge a run of adjacent matching blocks onto the accumulator `cur` (the
`non_adjacent` loop of `get_matching_blocks`). -/
def mergeAdjGo (cur : Nat × Nat × Nat) : List (Nat × Nat × Nat) → List (Nat × Nat × Nat)
  | [] => [cur]
  | (i2, j2, k2) :: rest =>
    if cur.1 + cur.2.2 = i2 ∧ cur.2.1 + cur.2.2 = j2 then
      mergeAdjGo (cur.1, cur.2.1, cur.2.2 + k2) rest
    else cur :: mergeAdjGo (i2, j2, k2) rest

/-- Merge adjacent matching blocks. -/
def mergeAdj : List (Nat × Nat × Nat) → List (Nat × Nat × Nat)
  | [] => []
  | b :: rest => mergeAdjGo b rest

/-- `SequenceMatcher.get_matching_blocks`, ending with the sentinel
`(len(a), len(b), 0)`. -/
def matchingBlocks (a b : List String) : List (Nat × Nat × Nat) :=
  mergeAdj (blocksAux a b (a.length + b.length + 1) 0 a.length 0 b.length) ++
    [(a.length, b.length, 0)]

/-- One opcode of `SequenceMatcher.get_opcodes`: a tag (`"replace"`,
`"delete"`, `"insert"`, `"equal"`) and the ranges it covers. -/
structure Op where
  tag : String
  i1 : Nat
  i2 : Nat
  j1 : Nat
  j2 : Nat
deriving DecidableEq, Inhabited

/-- Turn matching blocks into opcodes (`get_opcodes`), starting from
position `(i, j)`. -/
def opcodesAux : Nat → Nat → List (Nat × Nat × Nat) → List Op
  | _, _, [] => []
  | i, j, (ai, bj, k) :: rest =>
    (if i < ai ∧ j < bj then [⟨"replace", i, ai, j, bj⟩]
     else if i < ai then [⟨"delete", i, ai, j, bj⟩]
     else if j < bj then [⟨"insert", i, ai, j, bj⟩]
     else []) ++
    (if k ≠ 0 then [⟨"equal", ai, ai + k, bj, bj + k⟩] else []) ++
    opcodesAux (ai + k) (bj + k) rest

/-- `SequenceMatcher.get_opcodes`. -/
def opcodes (a b : List String) : List Op :=
  opcodesAux 0 0 (matchingBlocks a b)

/-- Trim the context of a leading equal opcode (`get_grouped_opcodes`). -/
def fixFirst (n : Nat) : List Op → List Op
  | [] => []
  | c :: rest =>
    (if c.tag == "equal" then
       { c with i1 := max c.i1 (c.i2 - n), j1 := max c.j1 (c.j2 - n) }
     else c) :: rest

/-- Trim the context of a trailing equal opcode (`get_grouped_opcodes`). -/
def fixLast (n : Nat) : List Op → List Op
  | [] => []
  | [c] =>
    [if c.tag == "equal" then
       { c with i2 := min c.i2 (c.i1 + n), j2 := min c.j2 (c.j1 + n) }
     else c]
  | c :: rest => c :: fixLast n rest

/-- The grouping loop of `get_grouped_opcodes`: split at equal runs longer
than `2n`, keeping `n` lines of context on each side; a final group that is
a single equal opcode is not emitted. -/
def groupLoop (n : Nat) : List Op → List Op → List (List Op)
  | group, [] =>
    if group ≠ [] ∧ ¬(group.length = 1 ∧ (group.headD default).tag == "equal") then [group]
    else []
  | group, c :: rest =>
    if c.tag == "equal" ∧ c.i2 - c.i1 > n + n then
      (group ++ [{ c with i2 := min c.i2 (c.i1 + n), j2 := min c.j2 (c.j1 + n) }]) ::
        groupLoop n [{ c with i1 := max c.i1 (c.i2 - n), j1 := max c.j1 (c.j2 - n) }] rest
    else groupLoop n (group ++ [c]) rest

/-- `SequenceMatcher.get_grouped_opcodes(n)`. -/
def groupedOpcodes (n : Nat) (codes0 : List Op) : List (List Op) :=
  let codes1 := if codes0 = [] then [⟨"equal", 0, 1, 0, 1⟩] else codes0
  groupLoop n [] (fixLast n (fixFirst n codes1))

/-- `difflib._format_range_unified`. -/
def formatRangeUnified (start stop : Nat) : String :=
  let length := stop - start
  if length = 1 then toString (start + 1)
  else if length = 0 then toString start ++ ",0"
  else toString (start + 1) ++ "," ++ toString length

/-- The diff body lines contributed by one opcode. -/
def opLines (a b : List String) (c : Op) : List String :=
  if c.tag == "equal" then (slice a c.i1 c.i2).map (fun line => " " ++ line)
  else
    (if c.tag == "replace" || c.tag == "delete" then
       (slice a c.i1 c.i2).map (fun line => "-" ++ line)
     else []) ++
    (if c.tag == "replace" || c.tag == "insert" then
       (slice b c.j1 c.j2).map (fun line => "+" ++ line)
     else [])

/-- One hunk: the `@@ -r1 +r2 @@` header followed by its body lines. -/
def groupDiff (a b : List String) (g : List Op) : List String :=
  ("@@ -" ++ formatRangeUnified (g.headD default).i1 (g.getLastD default).i2 ++
   " +" ++ formatRangeUnified (g.headD default).j1 (g.getLastD default).j2 ++ " @@") ::
    (g.map (opLines a b)).flatten

/-- `difflib.unified_diff(a, b, fromfile="before", tofile="after",
lineterm="")` as a list of lines (empty when the inputs have no diff
groups, e.g. when they are equal). -/
def unifiedDiff (a b : List String) : List String :=
  let groups := groupedOpcodes 3 (opcodes a b)
  if groups = [] then []
  else "--- before" :: "+++ after" :: (groups.map (groupDiff a b)).flatten

/-! ### Concrete instantiations used by witnesses and counterexamples -/

/-- Trivial cleaner: the body already is the normalized text. -/
def clean0 : String → Option String → String := fun s _ => s

/-- Trivial fingerprint: the text itself (the state machine only compares
fingerprints for equality). -/
def sha0 : String → String := fun s => s

/-- Trivial diff: always empty. -/
def udiff0 : List String → List String → List String := fun _ _ => []

/-- Fixed date renderer. -/
def rfc0 : ℚ → String := fun _ => "Thu, 01 Jan 1970 00:00:00 GMT"

/-- Empty run state. -/
def rs0 : RunState := { state := [], changes := [], fs := [], something_changed := false }

/-! ### C5: diff preview truncation -/

/-- Closed form of the preview loop from index `i ≤ 21`. -/
theorem previewGo_spec (d : List String) : ∀ i, i ≤ 21 →
    previewGo i d = if 21 < d.length + i then d.take (21 - i) ++ [truncMarker] else d := by
  induction d with
  | nil =>
    intro i hi
    rw [previewGo, if_neg (by simpa using by omega : ¬ 21 < ([] : List String).length + i)]
  | cons l r ih =>
    intro i hi
    by_cases h20 : i > 20
    · have hi21 : i = 21 := by omega
      rw [previewGo, if_pos h20, if_pos (by simp; omega)]
      simp [hi21]
    · rw [previewGo, if_neg h20, ih (i + 1) (by omega)]
      by_cases hlen : 21 < r.length + (i + 1)
      · rw [if_pos hlen, if_pos (by simp; omega)]
        have htake : (21 - i) = (21 - (i + 1)) + 1 := by omega
        rw [htake, List.take_succ_cons]
        simp
      · rw [if_neg hlen, if_neg (by simp; omega)]

/-- C5: a unified diff of more than 21 lines is previewed as exactly its
first 21 lines followed by exactly one truncation marker line; a diff of at
most 21 lines is previewed in full with no marker (src/checker.py lines
151-157). -/
theorem diff_preview_truncation (d : List String) :
    (21 < d.length → buildPreview d = d.take 21 ++ [truncMarker]) ∧
    (d.length ≤ 21 → buildPreview d = d) := by
  have h := previewGo_spec d 0 (by omega)
  constructor
  · intro hl
    rw [buildPreview, h, if_pos (by omega)]
  · intro hl
    rw [buildPreview, h, if_neg (by omega)]

/-- Witness for C5 at a 23-line diff and a 2-line diff. -/
theorem diff_preview_truncation_witness :
    buildPreview ((List.range 23).map toString) =
      ((List.range 23).map toString).take 21 ++ [truncMarker] ∧
    buildPreview ["+x", "-y"] = ["+x", "-y"] :=
  ⟨(diff_preview_truncation _).1 (by simp),
   (diff_preview_truncation _).2 (by simp)⟩

/-! ### C3: 304 / non-2xx responses skip the target -/

/-- C3: on a 304 response or any status outside the 2xx range, the target's
iteration leaves the whole run state (its state entry, the change list and
the snapshot store) untouched, and the loop proceeds to the remaining
targets from that same state (src/checker.py lines 122-125). -/
theorem skip_on_not_modified_or_failure (clean : String → Option String → String)
    (sha : String → String) (udiff : List String → List String → List String)
    (entry : TargetEntry) (resp : Response) (ts : ℚ) (rs : RunState)
    (h : resp.status_code = 304 ∨ ¬(200 ≤ resp.status_code ∧ resp.status_code < 300)) :
    stepTarget clean sha udiff entry resp ts rs = rs ∧
    ∀ rest, runLoop clean sha udiff ({ entry := entry, resp := resp, ts := ts } :: rest) rs =
      runLoop clean sha udiff rest rs := by
  have hstep : stepTarget clean sha udiff entry resp ts rs = rs := by
    unfold stepTarget
    rcases h with h304 | hfail
    · rw [if_pos h304]
    · by_cases h304 : resp.status_code = 304
      · rw [if_pos h304]
      · rw [if_neg h304, if_pos hfail]
  refine ⟨hstep, fun rest => ?_⟩
  rw [runLoop]
  exact congrArg (runLoop clean sha udiff rest) hstep

/-- 304 response used by the C3 witness. -/
def resp304 : Response := { status_code := 304, text := "ignored body" }

/-- Target used by the C3 witness. -/
def entry304 : TargetEntry := { id := "a", url := "http://example.invalid/page" }

/-- Witness for C3: a 304 response leaves the empty run state unchanged. -/
theorem skip_on_not_modified_or_failure_witness :
    stepTarget clean0 sha0 udiff0 entry304 resp304 3 rs0 = rs0 :=
  (skip_on_not_modified_or_failure clean0 sha0 udiff0 entry304 resp304 3 rs0 (Or.inl rfl)).1

/-! ### C1: a detected change appends one record, writes a snapshot pair,
and replaces the stored state -/

/-- C1: on a 2xx response whose normalized-text fingerprint differs from the
stored one (including the case of no previous record, whose stored
fingerprint is `none`), the iteration appends exactly one change record for
that target, writes the normalized-text/raw-HTML snapshot pair, and replaces
the stored fingerprint, validators and snapshot pointer with the new values
(src/checker.py lines 133-167). -/
theorem change_detected_updates (clean : String → Option String → String)
    (sha : String → String) (udiff : List String → List String → List String)
    (entry : TargetEntry) (resp : Response) (ts : ℚ) (rs : RunState)
    (h2 : 200 ≤ resp.status_code) (h3 : resp.status_code < 300)
    (hne : (getState rs.state entry.id).hash ≠ some (sha (clean resp.text entry.selector))) :
    stepTarget clean sha udiff entry resp ts rs =
      { state := setState rs.state entry.id
          { hash := some (sha (clean resp.text entry.selector)),
            etag := resp.etag, last_modified := resp.last_modified,
            last_text_file := some (newTxtName ts) },
        changes := rs.changes ++
          [{ id := entry.id, url := entry.url, title := entry.title.getD entry.url,
             timestamp := ts, hash := sha (clean resp.text entry.selector),
             summary := some (summaryOf udiff
               (readOldText
                 (writeFS (writeFS rs.fs entry.id (newTxtName ts) (clean resp.text entry.selector))
                   entry.id (newHtmlName ts) resp.text)
                 entry.id (getState rs.state entry.id))
               (clean resp.text entry.selector)) }],
        fs := writeFS (writeFS rs.fs entry.id (newTxtName ts) (clean resp.text entry.selector))
                entry.id (newHtmlName ts) resp.text,
        something_changed := true } := by
  have h304 : ¬ resp.status_code = 304 := by omega
  simp only [stepTarget]
  rw [if_neg h304, if_neg (not_not_intro ⟨h2, h3⟩), if_pos hne]

/-- Target used by the C1 witness. -/
def entryW : TargetEntry :=
  { id := "t1", url := "http://example.invalid/a", title := some "Page" }

/-- 2xx response used by the C1 witness. -/
def respW : Response :=
  { status_code := 200, etag := some "E1", last_modified := some "L1", text := "hello" }

/-- Witness for C1: first-ever fetch of a target produces one change record,
one snapshot pair, and a fresh state entry. -/
theorem change_detected_updates_witness :
    stepTarget clean0 sha0 udiff0 entryW respW 7 rs0 =
      { state := [("t1", { hash := some "hello", etag := some "E1",
                           last_modified := some "L1", last_text_file := some "7.txt" })],
        changes := [{ id := "t1", url := "http://example.invalid/a", title := "Page",
                      timestamp := 7, hash := "hello",
                      summary := some "Content changed." }],
        fs := [(("t1", "7.html"), "hello"), (("t1", "7.txt"), "hello")],
        something_changed := true } := by
  rw [change_detected_updates clean0 sha0 udiff0 entryW respW 7 rs0 (by decide) (by decide)
    (by decide)]
  decide

/-! ### C4: unchanged fingerprint refreshes only the validators -/

/-- Looking up the entry just stored. -/
theorem getState_setState_self (st : List (String × TState)) (uid : String) (v : TState) :
    getState (setState st uid v) uid = v := by
  simp [getState, setState, List.lookup]

/-- C4 (amended): on a 2xx response whose fingerprint equals the stored one,
only the target's state entry is rewritten: the hash and snapshot pointer
are unchanged, each caching validator is replaced by the server-supplied
value when that value is present and non-empty (Python truthiness of
`etag or prev.get("etag")`) and retained otherwise, and no change record,
snapshot write or `something_changed` flag is produced (src/checker.py
lines 168-174). -/
theorem validators_refreshed_on_unchanged (clean : String → Option String → String)
    (sha : String → String) (udiff : List String → List String → List String)
    (entry : TargetEntry) (resp : Response) (ts : ℚ) (rs : RunState)
    (h2 : 200 ≤ resp.status_code) (h3 : resp.status_code < 300)
    (heq : (getState rs.state entry.id).hash = some (sha (clean resp.text entry.selector))) :
    stepTarget clean sha udiff entry resp ts rs =
      { rs with state := setState rs.state entry.id
                  { hash := some (sha (clean resp.text entry.selector)),
                    etag := pyOr resp.etag (getState rs.state entry.id).etag,
                    last_modified :=
                      pyOr resp.last_modified (getState rs.state entry.id).last_modified,
                    last_text_file := (getState rs.state entry.id).last_text_file } } ∧
    (stepTarget clean sha udiff entry resp ts rs).changes = rs.changes ∧
    (stepTarget clean sha udiff entry resp ts rs).fs = rs.fs ∧
    (stepTarget clean sha udiff entry resp ts rs).something_changed = rs.something_changed ∧
    (getState (stepTarget clean sha udiff entry resp ts rs).state entry.id).hash =
      (getState rs.state entry.id).hash ∧
    (getState (stepTarget clean sha udiff entry resp ts rs).state entry.id).last_text_file =
      (getState rs.state entry.id).last_text_file ∧
    (∀ a b : Option String, truthyStr a = true → pyOr a b = a) ∧
    (∀ a b : Option String, truthyStr a = false → pyOr a b = b) := by
  have h304 : ¬ resp.status_code = 304 := by omega
  have hmain : stepTarget clean sha udiff entry resp ts rs =
      { rs with state := setState rs.state entry.id
                  { hash := some (sha (clean resp.text entry.selector)),
                    etag := pyOr resp.etag (getState rs.state entry.id).etag,
                    last_modified :=
                      pyOr resp.last_modified (getState rs.state entry.id).last_modified,
                    last_text_file := (getState rs.state entry.id).last_text_file } } := by
    simp only [stepTarget]
    rw [if_neg h304, if_neg (not_not_intro ⟨h2, h3⟩), if_neg (not_not_intro heq)]
  refine ⟨hmain, ?_, ?_, ?_, ?_, ?_, ?_, ?_⟩
  · rw [hmain]
  · rw [hmain]
  · rw [hmain]
  · rw [hmain]
    simpa [getState_setState_self] using heq.symm
  · rw [hmain]
    simp [getState_setState_self]
  · intro a b h; simp [pyOr, h]
  · intro a b h; simp [pyOr, h]

/-- Target used by the C4 counterexample and witness. -/
def entryC4 : TargetEntry := { id := "a", url := "http://example.invalid/p" }

/-- Response whose ETag header is present but empty. -/
def respC4 : Response :=
  { status_code := 200, etag := some "", last_modified := none, text := "body" }

/-- Stored state whose fingerprint matches `respC4`'s body. -/
def stC4 : TState :=
  { hash := some "body", etag := some "W-old",
    last_modified := some "Mon, 01 Jan 2024 00:00:00 GMT", last_text_file := some "1.txt" }

/-- Run state holding `stC4` for target `a`. -/
def rsC4 : RunState :=
  { state := [("a", stC4)], changes := [], fs := [], something_changed := false }

/-- Counterexample to C4 as stated: the server supplied an ETag (the header
is present, with empty value), yet the stored validator keeps its old value
instead of being replaced by the server-supplied one — Python's
`etag or prev.get("etag")` treats the empty string as absent. -/
theorem validators_refreshed_cex :
    respC4.etag = some "" ∧
    (getState (stepTarget clean0 sha0 udiff0 entryC4 respC4 9 rsC4).state "a").etag =
      some "W-old" ∧
    (getState (stepTarget clean0 sha0 udiff0 entryC4 respC4 9 rsC4).state "a").etag ≠
      respC4.etag := by
  decide

/-- Response with a fresh non-empty ETag and no Last-Modified header. -/
def respC4b : Response :=
  { status_code := 200, etag := some "E2", last_modified := none, text := "body" }

/-- Witness for the amended C4: a non-empty server ETag replaces the stored
one, the absent Last-Modified and the snapshot pointer are retained, the
hash is unchanged, and nothing else moves. -/
theorem validators_refreshed_on_unchanged_witness :
    stepTarget clean0 sha0 udiff0 entryC4 respC4b 9 rsC4 =
      { state := [("a", { hash := some "body", etag := some "E2",
                          last_modified := some "Mon, 01 Jan 2024 00:00:00 GMT",
                          last_text_file := some "1.txt" }), ("a", stC4)],
        changes := [], fs := [], something_changed := false } := by
  rw [(validators_refreshed_on_unchanged clean0 sha0 udiff0 entryC4 respC4b 9 rsC4
    (by decide) (by decide) (by decide)).1]
  decide

/-! ### C6: summary dispatch between diff preview and fallback -/

/-- C6 (amended): the summary is the joined truncated diff preview exactly
when the previous snapshot text is available and non-empty and the joined
preview is non-empty; the fixed fallback is used when the previous text is
unavailable or empty (`if old_text:`) or the joined preview is empty
(`"\n".join(preview) or "Content changed."`) (src/checker.py lines
142-157). -/
theorem summary_dispatch (udiff : List String → List String → List String)
    (old : Option String) (text : String) :
    (truthyStr old = false → summaryOf udiff old text = "Content changed.") ∧
    (∀ s, old = some s → s ≠ "" →
      (String.intercalate "\n" (buildPreview (udiff (splitlines s) (splitlines text))) = "" →
        summaryOf udiff old text = "Content changed.") ∧
      (String.intercalate "\n" (buildPreview (udiff (splitlines s) (splitlines text))) ≠ "" →
        summaryOf udiff old text =
          String.intercalate "\n" (buildPreview (udiff (splitlines s) (splitlines text))))) := by
  constructor
  · intro h
    simp [summaryOf, h]
  · rintro s rfl hs
    have ht : truthyStr (some s) = true := by
      simpa [truthyStr] using hs
    constructor
    · intro hj
      simp [summaryOf, ht, hj]
    · intro hj
      simp [summaryOf, ht, hj]

/-- Target used by the C6 counterexample. -/
def entryC6 : TargetEntry := { id := "a", url := "http://example.invalid/p" }

/-- Response carrying the new one-line body. -/
def respC6 : Response := { status_code := 200, text := "x" }

/-- Stored state whose snapshot pointer names an existing, empty snapshot. -/
def stC6 : TState := { hash := some "OLDHASH", last_text_file := some "100.txt" }

/-- Run state with the empty previous snapshot on disk. -/
def rsC6 : RunState :=
  { state := [("a", stC6)], changes := [], fs := [(("a", "100.txt"), "")],
    something_changed := false }

/-- Counterexample to C6 as stated: the stored snapshot pointer resolves to
an existing previous snapshot file (whose text is empty), the unified diff
between previous and current normalized text is nonempty, and yet the
appended change record carries the fixed fallback summary — Python's
`if old_text:` treats the empty previous text as missing. -/
theorem summary_dispatch_cex :
    readOldText rsC6.fs "a" (getState rsC6.state "a") = some "" ∧
    unifiedDiff (splitlines "") (splitlines "x") =
      ["--- before", "+++ after", "@@ -0,0 +1 @@", "+x"] ∧
    (stepTarget clean0 sha0 unifiedDiff entryC6 respC6 200 rsC6).changes.map
      (fun r => r.summary) = [some "Content changed."] := by
  decide

/-- Witness for the amended C6: with a non-empty previous text and a
non-empty diff, the summary is the joined diff preview. -/
theorem summary_dispatch_witness :
    summaryOf unifiedDiff (some "old line") "new line" =
      String.intercalate "\n"
        (buildPreview (unifiedDiff (splitlines "old line") (splitlines "new line"))) :=
  ((summary_dispatch unifiedDiff (some "old line") "new line").2 "old line" rfl
    (by decide)).2 (by decide)

/-! ### Sorting lemmas for the change log -/

/-- Inserting permutes to consing. -/
theorem insertDesc_perm (c : ChangeRecord) (l : List ChangeRecord) :
    (insertDesc c l).Perm (c :: l) := by
  induction l with
  | nil => rfl
  | cons x xs ih =>
    rw [insertDesc]
    by_cases h : x.timestamp ≤ c.timestamp
    · rw [if_pos h]
    · rw [if_neg h]
      exact (ih.cons x).trans (List.Perm.swap c x xs)

/-- The stable descending sort permutes its input. -/
theorem sortDescTs_perm (l : List ChangeRecord) : (sortDescTs l).Perm l := by
  induction l with
  | nil => rfl
  | cons c cs ih => exact (insertDesc_perm c (sortDescTs cs)).trans (ih.cons c)

/-- Inserting into a descending-sorted list keeps it sorted. -/
theorem insertDesc_sorted (c : ChangeRecord) (l : List ChangeRecord)
    (h : SortedDesc l) : SortedDesc (insertDesc c l) := by
  induction l with
  | nil => simp [insertDesc, SortedDesc]
  | cons x xs ih =>
    unfold SortedDesc at h ⊢
    rw [List.pairwise_cons] at h
    rw [insertDesc]
    by_cases hx : x.timestamp ≤ c.timestamp
    · rw [if_pos hx]
      refine List.Pairwise.cons ?_ (List.Pairwise.cons h.1 h.2)
      intro b hb
      rcases List.mem_cons.1 hb with rfl | hb
      · exact hx
      · exact le_trans (h.1 b hb) hx
    · rw [if_neg hx]
      refine List.Pairwise.cons ?_ (ih h.2)
      intro b hb
      rcases List.mem_cons.1 ((insertDesc_perm c xs).mem_iff.1 hb) with rfl | h2
      · exact le_of_not_le hx
      · exact h.1 b h2

/-- The stable descending sort is sorted by timestamp descending. -/
theorem sortDescTs_sorted (l : List ChangeRecord) : SortedDesc (sortDescTs l) := by
  induction l with
  | nil => exact List.Pairwise.nil
  | cons c cs ih => exact insertDesc_sorted c (sortDescTs cs) ih

/-! ### Flag invariants of the loop -/

/-- `something_changed` never goes back to false within a run. -/
theorem stepTarget_flag_mono (clean : String → Option String → String)
    (sha : String → String) (udiff : List String → List String → List String)
    (entry : TargetEntry) (resp : Response) (ts : ℚ) (rs : RunState)
    (h : rs.something_changed = true) :
    (stepTarget clean sha udiff entry resp ts rs).something_changed = true := by
  simp only [stepTarget]
  split_ifs <;> simp [h]

/-- A step that leaves the flag false did not append to the change list. -/
theorem stepTarget_not_changed (clean : String → Option String → String)
    (sha : String → String) (udiff : List String → List String → List String)
    (entry : TargetEntry) (resp : Response) (ts : ℚ) (rs : RunState)
    (hflag : (stepTarget clean sha udiff entry resp ts rs).something_changed = false) :
    (stepTarget clean sha udiff entry resp ts rs).changes = rs.changes := by
  simp only [stepTarget] at hflag ⊢
  split_ifs at hflag ⊢ <;> simp_all

/-- Once true, `something_changed` stays true for the rest of the loop. -/
theorem runLoop_flag_mono (clean : String → Option String → String)
    (sha : String → String) (udiff : List String → List String → List String) :
    ∀ (inputs : List RunInput) (rs : RunState), rs.something_changed = true →
      (runLoop clean sha udiff inputs rs).something_changed = true := by
  intro inputs
  induction inputs with
  | nil => intro rs h; exact h
  | cons inp rest ih =>
    intro rs h
    rw [runLoop]
    exact ih _ (stepTarget_flag_mono clean sha udiff inp.entry inp.resp inp.ts rs h)

/-- A run whose flag ends false left the in-memory change list untouched. -/
theorem runLoop_changes_of_flag_false (clean : String → Option String → String)
    (sha : String → String) (udiff : List String → List String → List String) :
    ∀ (inputs : List RunInput) (rs : RunState),
      (runLoop clean sha udiff inputs rs).something_changed = false →
      (runLoop clean sha udiff inputs rs).changes = rs.changes := by
  intro inputs
  induction inputs with
  | nil => intro rs _; rfl
  | cons inp rest ih =>
    intro rs h
    rw [runLoop] at h ⊢
    have hstep : (stepTarget clean sha udiff inp.entry inp.resp inp.ts rs).something_changed
        = false := by
      cases hb : (stepTarget clean sha udiff inp.entry inp.resp inp.ts rs).something_changed
      · rfl
      · rw [runLoop_flag_mono clean sha udiff rest _ hb] at h
        simp at h
    rw [ih _ h, stepTarget_not_changed clean sha udiff inp.entry inp.resp inp.ts rs hstep]

/-! ### C2: persisted change-log bound -/

/-- What `main` writes to `changes.json` when it persists: the sorted,
truncated log (src/checker.py lines 176-178). -/
theorem runMain_written_characterize (clean : String → Option String → String)
    (sha : String → String) (udiff : List String → List String → List String)
    (rfc : ℚ → String) (now : ℚ) (files : Files) (inputs : List RunInput)
    (log : List ChangeRecord)
    (h : (runMain clean sha udiff rfc now files inputs).written = some log) :
    log = (sortDescTs (runLoop clean sha udiff inputs (initRS files)).changes).take 1000 := by
  simp only [runMain] at h
  split at h
  · simp only [Option.some.injEq] at h
    exact h.symm
  · simp at h

/-- Every log content ever written over any number of runs is bounded and
sorted. -/
theorem runManyWrites_bound (clean : String → Option String → String)
    (sha : String → String) (udiff : List String → List String → List String)
    (rfc : ℚ → String) :
    ∀ (specs : List RunSpec) (files : Files) (l : List ChangeRecord),
      l ∈ runManyWrites clean sha udiff rfc files specs →
      l.length ≤ 1000 ∧ SortedDesc l := by
  intro specs
  induction specs with
  | nil =>
    intro files l hl
    simp [runManyWrites] at hl
  | cons spec rest ih =>
    intro files l hl
    simp only [runManyWrites] at hl
    rcases List.mem_append.1 hl with h1 | h2
    · cases hw : (runMain clean sha udiff rfc spec.now files spec.inputs).written with
      | none =>
        rw [hw] at h1
        simp at h1
      | some w =>
        rw [hw] at h1
        have hl : l = w := by simpa using h1
        rw [hl, runMain_written_characterize clean sha udiff rfc spec.now files spec.inputs w hw]
        constructor
        · rw [List.length_take]
          exact inf_le_left
        · exact List.Pairwise.sublist (List.take_sublist _ _) (sortDescTs_sorted _)
    · exact ih _ _ h2

/-- C2: whenever the change log is persisted, the written log is the sorted
(by timestamp descending) truncation of the appended log to its 1000 most
recent records: it has at most 1000 entries, is sorted descending, is a
prefix of a permutation of the full appended log whose dropped remainder is
older than everything kept, and this holds at every write over any number of
runs (src/checker.py lines 176-178). -/
theorem change_log_bound (clean : String → Option String → String)
    (sha : String → String) (udiff : List String → List String → List String)
    (rfc : ℚ → String) (now : ℚ) (files : Files) (inputs : List RunInput)
    (log : List ChangeRecord)
    (h : (runMain clean sha udiff rfc now files inputs).written = some log) :
    log = (sortDescTs (runLoop clean sha udiff inputs (initRS files)).changes).take 1000 ∧
    log.length ≤ 1000 ∧
    SortedDesc log ∧
    (sortDescTs (runLoop clean sha udiff inputs (initRS files)).changes).Perm
      (runLoop clean sha udiff inputs (initRS files)).changes ∧
    log ++ (sortDescTs (runLoop clean sha udiff inputs (initRS files)).changes).drop 1000 =
      sortDescTs (runLoop clean sha udiff inputs (initRS files)).changes ∧
    (∀ (clean2 : String → Option String → String) (sha2 : String → String)
        (udiff2 : List String → List String → List String) (rfc2 : ℚ → String)
        (specs : List RunSpec) (files2 : Files) (l : List ChangeRecord),
      l ∈ runManyWrites clean2 sha2 udiff2 rfc2 files2 specs →
      l.length ≤ 1000 ∧ SortedDesc l) := by
  have hc := runMain_written_characterize clean sha udiff rfc now files inputs log h
  refine ⟨hc, ?_, ?_, sortDescTs_perm _, ?_, ?_⟩
  · rw [hc, List.length_take]
    exact inf_le_left
  · rw [hc]
    exact List.Pairwise.sublist (List.take_sublist _ _) (sortDescTs_sorted _)
  · rw [hc]
    exact List.take_append_drop _ _
  · intro clean2 sha2 udiff2 rfc2 specs files2 l hl
    exact runManyWrites_bound clean2 sha2 udiff2 rfc2 specs files2 l hl

/-- Empty persisted files. -/
def filesO : Files := { state := [], changes := [], fs := [] }

/-- One-target run input used by the C2 witness. -/
def inputsW : List RunInput := [{ entry := entryW, resp := respW, ts := 7 }]

/-- The change record that run appends. -/
def recW : ChangeRecord :=
  { id := "t1", url := "http://example.invalid/a", title := "Page", timestamp := 7,
    hash := "hello", summary := some "Content changed." }

/-- Witness for C2: a run that persists writes `[recW]`, which is within the
bound and sorted. -/
theorem change_log_bound_witness :
    ([recW] : List ChangeRecord).length ≤ 1000 ∧ SortedDesc [recW] := by
  have h := change_log_bound clean0 sha0 udiff0 rfc0 8 filesO inputsW [recW] (by decide)
  exact ⟨h.2.1, h.2.2.1⟩

/-! ### C9: the feed is regenerated every run from the top 100 records -/

/-- C9: every run — whether or not anything changed — regenerates the feed
document from the run's final change log, and the records rendered are
exactly the top 100 most recent by timestamp descending: the sorted log is a
permutation of the log, the rendered part is its 100-element prefix (so it
is sorted descending and everything dropped is older), with length
`min 100 (length log)` (src/checker.py lines 70-71, 176-184). -/
theorem feed_regenerated (clean : String → Option String → String)
    (sha : String → String) (udiff : List String → List String → List String)
    (rfc : ℚ → String) (now : ℚ) (files : Files) (inputs : List RunInput) :
    (runMain clean sha udiff rfc now files inputs).feed =
      generate_feed rfc now (runMain clean sha udiff rfc now files inputs).newFiles.changes ∧
    ∀ changes : List ChangeRecord,
      feedItems changes ++ (sortDescTs changes).drop 100 = sortDescTs changes ∧
      SortedDesc (feedItems changes) ∧
      (sortDescTs changes).Perm changes ∧
      (feedItems changes).length = min 100 changes.length := by
  constructor
  · simp only [runMain]
    split
    · rfl
    · rename_i hflag
      have hfalse : (runLoop clean sha udiff inputs (initRS files)).something_changed
          = false := by
        revert hflag
        cases (runLoop clean sha udiff inputs (initRS files)).something_changed <;> simp
      rw [show (runLoop clean sha udiff inputs (initRS files)).changes = files.changes
        from runLoop_changes_of_flag_false clean sha udiff inputs (initRS files) hfalse]
  · intro changes
    refine ⟨List.take_append_drop _ _, ?_, sortDescTs_perm _, ?_⟩
    · exact List.Pairwise.sublist (List.take_sublist _ _) (sortDescTs_sorted _)
    · rw [feedItems, List.length_take, (sortDescTs_perm changes).length_eq]

/-! ### C10: guid structure and collisions -/

/-- Python `int()` truncation agrees with the floor on nonnegative
rationals. -/
theorem intTs_eq_floor (q : ℚ) (hq : 0 ≤ q) : intTs q = ⌊q⌋ := by
  rw [Rat.floor_def]
  exact Int.tdiv_eq_ediv (Rat.num_nonneg.2 hq) (by positivity)

/-- The rational 51/10, given in lowest terms so that it evaluates
structurally. -/
def tsG1 : ℚ := ⟨51, 10, by decide, by decide⟩

/-- The rational 59/10, given in lowest terms. -/
def tsG2 : ℚ := ⟨59, 10, by decide, by decide⟩

/-- Record with timestamp 5.1 seconds. -/
def recG1 : ChangeRecord :=
  { id := "a", url := "http://example.invalid/x", title := "t", timestamp := tsG1,
    hash := "h1" }

/-- Record with timestamp 5.9 seconds. -/
def recG2 : ChangeRecord :=
  { id := "a", url := "http://example.invalid/x", title := "t", timestamp := tsG2,
    hash := "h2" }

/-- C10: a feed item's guid is exactly the target id, a colon, and the
integer part (floor, for the nonnegative epoch timestamps the code draws) of
the record's timestamp; records of one target whose timestamps share the
integer second get identical guids — exhibited by two records 0.8 seconds
apart with the same guid (src/checker.py line 81). -/
theorem guid_structure :
    (∀ c : ChangeRecord, 0 ≤ c.timestamp →
      guidOf c = c.id ++ ":" ++ toString ⌊c.timestamp⌋) ∧
    (∀ c c' : ChangeRecord, c.id = c'.id → intTs c.timestamp = intTs c'.timestamp →
      guidOf c = guidOf c') ∧
    (guidOf recG1 = guidOf recG2 ∧ recG1.timestamp ≠ recG2.timestamp ∧
      recG1.id = recG2.id) := by
  refine ⟨?_, ?_, by decide, by decide, rfl⟩
  · intro c hc
    rw [guidOf, intTs_eq_floor _ hc]
  · intro c c' hid hint
    rw [guidOf, guidOf, hid, hint]

/-- Witness for C10 at the concrete records. -/
theorem guid_structure_witness :
    guidOf recG1 = recG1.id ++ ":" ++ toString ⌊recG1.timestamp⌋ ∧
    guidOf recG1 = guidOf recG2 :=
  ⟨guid_structure.1 recG1 (by decide),
   guid_structure.2.1 recG1 recG2 rfl (by decide)⟩

/-! ### C8: XML escaping of user-controlled feed fields -/

/-- `replace1` distributes over append. -/
theorem replace1_append (t : Char) (r : List Char) :
    ∀ xs ys, replace1 t r (xs ++ ys) = replace1 t r xs ++ replace1 t r ys := by
  intro xs ys
  induction xs with
  | nil => rfl
  | cons c cs ih =>
    by_cases h : c = t
    · simp [replace1, h, ih]
    · simp [replace1, h, ih]

/-- The chained `str.replace` escaping equals character-wise escaping: every
occurrence of the three characters is replaced by its entity, once, and
nothing else changes. -/
theorem escL_eq_charwise : ∀ l, escL l = escCharwise l := by
  intro l
  induction l with
  | nil => rfl
  | cons c cs ih =>
    unfold escL at ih ⊢
    unfold escCharwise escChar
    by_cases h1 : c = '&'
    · subst h1
      rw [show replace1 '&' "&amp;".data ('&' :: cs) =
            "&amp;".data ++ replace1 '&' "&amp;".data cs from by rw [replace1, if_pos rfl]]
      rw [replace1_append, replace1_append]
      rw [show replace1 '<' "&lt;".data "&amp;".data = "&amp;".data from by decide]
      rw [show replace1 '>' "&gt;".data "&amp;".data = "&amp;".data from by decide]
      rw [ih]
      simp
    · by_cases h2 : c = '<'
      · subst h2
        rw [show replace1 '&' "&amp;".data ('<' :: cs) =
              '<' :: replace1 '&' "&amp;".data cs from by rw [replace1, if_neg (by decide)]]
        rw [show ∀ x, replace1 '<' "&lt;".data ('<' :: x) =
              "&lt;".data ++ replace1 '<' "&lt;".data x from fun x => by
                rw [replace1, if_pos rfl]]
        rw [replace1_append]
        rw [show replace1 '>' "&gt;".data "&lt;".data = "&lt;".data from by decide]
        rw [ih]
        simp
      · by_cases h3 : c = '>'
        · subst h3
          rw [show replace1 '&' "&amp;".data ('>' :: cs) =
                '>' :: replace1 '&' "&amp;".data cs from by rw [replace1, if_neg (by decide)]]
          rw [show ∀ x, replace1 '<' "&lt;".data ('>' :: x) =
                '>' :: replace1 '<' "&lt;".data x from fun x => by
                  rw [replace1, if_neg (by decide)]]
          rw [show ∀ x, replace1 '>' "&gt;".data ('>' :: x) =
                "&gt;".data ++ replace1 '>' "&gt;".data x from fun x => by
                  rw [replace1, if_pos rfl]]
          rw [ih]
          simp
        · rw [show replace1 '&' "&amp;".data (c :: cs) =
                c :: replace1 '&' "&amp;".data cs from by rw [replace1, if_neg h1]]
          rw [show ∀ x, replace1 '<' "&lt;".data (c :: x) =
                c :: replace1 '<' "&lt;".data x from fun x => by rw [replace1, if_neg h2]]
          rw [show ∀ x, replace1 '>' "&gt;".data (c :: x) =
                c :: replace1 '>' "&gt;".data x from fun x => by rw [replace1, if_neg h3]]
          rw [ih]
          simp [h1, h2, h3]

/-- One escaped character contributes no raw `<` or `>`. -/
theorem escChar_no_angle (c : Char) : '<' ∉ escChar c ∧ '>' ∉ escChar c := by
  unfold escChar
  split_ifs with h1 h2 h3
  · exact ⟨by decide, by decide⟩
  · exact ⟨by decide, by decide⟩
  · exact ⟨by decide, by decide⟩
  · constructor
    · intro hm
      exact h2 (List.mem_singleton.1 hm).symm
    · intro hm
      exact h3 (List.mem_singleton.1 hm).symm

/-- Escaped text contains no raw `<` or `>`. -/
theorem escCharwise_no_angle : ∀ l, '<' ∉ escCharwise l ∧ '>' ∉ escCharwise l := by
  intro l
  induction l with
  | nil => exact ⟨by decide, by decide⟩
  | cons c cs ih =>
    rw [escCharwise]
    constructor
    · intro hm
      rcases List.mem_append.1 hm with hm | hm
      · exact (escChar_no_angle c).1 hm
      · exact ih.1 hm
    · intro hm
      rcases List.mem_append.1 hm with hm | hm
      · exact (escChar_no_angle c).2 hm
      · exact ih.2 hm

/-- Record whose title carries a script tag. -/
def recC8 : ChangeRecord :=
  { id := "a", url := "http://example.invalid/x", title := "<script>alert(1)</script>",
    timestamp := 5, hash := "h", summary := some "sum" }

set_option maxRecDepth 100000 in
/-- C8: the escaping applied to every user-controlled feed field replaces
every occurrence of `&`, `<`, `>` by its entity (character-wise), so escaped
text contains no raw angle bracket; in particular the item generated for a
title containing `<script>` carries the escaped `&lt;script&gt;` and the raw
`<script>` occurs nowhere in it (src/checker.py lines 83-91). -/
theorem feed_escaping :
    (∀ s : String, esc s = String.mk (escCharwise s.data)) ∧
    (∀ l : List Char, '<' ∉ escL l ∧ '>' ∉ escL l) ∧
    segIn "<script>".data (itemXml rfc0 recC8).data = false ∧
    segIn "&lt;script&gt;".data (itemXml rfc0 recC8).data = true := by
  refine ⟨?_, ?_, by decide, by decide⟩
  · intro s
    rw [esc, escL_eq_charwise]
  · intro l
    rw [escL_eq_charwise]
    exact escCharwise_no_angle l

/-! ### C7: normalization properties of `clean_html` -/

/-- No two adjacent occurrences of `c`. -/
def NoRun (c : Char) (l : List Char) : Prop :=
  List.Chain' (fun a b => ¬(a = c ∧ b = c)) l

/-- The head surviving `dropWhile` fails the predicate. -/
theorem head_dropWhile (p : Char → Bool) :
    ∀ (l : List Char) (c : Char), (l.dropWhile p).head? = some c → p c = false := by
  intro l
  induction l with
  | nil => intro c h; simp at h
  | cons a t ih =>
    intro c h
    rw [List.dropWhile_cons] at h
    by_cases hpa : p a
    · rw [if_pos hpa] at h
      exact ih c h
    · rw [if_neg hpa] at h
      simp at h
      rw [← h]
      simpa using hpa

/-- `dropWhile` keeps the last element of a list it does not empty. -/
theorem getLast_dropWhile (p : Char → Bool) :
    ∀ l : List Char, l.dropWhile p ≠ [] → (l.dropWhile p).getLast? = l.getLast? := by
  intro l
  induction l with
  | nil => intro h; simp at h
  | cons a t ih =>
    intro h
    rw [List.dropWhile_cons] at h ⊢
    by_cases hpa : p a
    · rw [if_pos hpa] at h ⊢
      have ht : t ≠ [] := by
        intro he
        rw [he] at h
        simp at h
      rcases t with _ | ⟨b, t'⟩
      · exact absurd rfl ht
      · rw [ih h, List.getLast?_cons_cons]
    · rw [if_neg hpa]

/-- Tabs never survive the horizontal-whitespace pass. -/
theorem collapseH_no_tab : ∀ l : List Char, '\t' ∉ collapseH l ∧ '\t' ∉ skipH l := by
  intro l
  induction l with
  | nil => exact ⟨by simp [collapseH], by simp [skipH]⟩
  | cons c cs ih =>
    constructor
    · rw [collapseH]
      by_cases hc : isHT c
      · rw [if_pos hc]
        intro hm
        rcases List.mem_cons.1 hm with he | hm
        · exact absurd he (by decide)
        · exact ih.2 hm
      · rw [if_neg hc]
        intro hm
        rcases List.mem_cons.1 hm with he | hm
        · exact hc (by rw [← he]; decide)
        · exact ih.1 hm
    · rw [skipH]
      by_cases hc : isHT c
      · rw [if_pos hc]
        exact ih.2
      · rw [if_neg hc]
        intro hm
        rcases List.mem_cons.1 hm with he | hm
        · exact hc (by rw [← he]; decide)
        · exact ih.1 hm

/-- A non-horizontal-whitespace character is not a space. -/
theorem not_space_of_not_isHT {c : Char} (h : ¬ isHT c) : ¬ c = ' ' := by
  intro he
  exact h (by rw [he]; decide)

/-- The horizontal-whitespace pass leaves no two adjacent spaces. -/
theorem collapseH_noRun : ∀ l : List Char,
    NoRun ' ' (collapseH l) ∧ NoRun ' ' (' ' :: skipH l) := by
  intro l
  induction l with
  | nil => exact ⟨by simp [collapseH, NoRun], by simp [skipH, NoRun]⟩
  | cons c cs ih =>
    constructor
    · rw [collapseH]
      by_cases hc : isHT c
      · rw [if_pos hc]
        exact ih.2
      · rw [if_neg hc]
        refine List.chain'_cons'.2 ⟨?_, ih.1⟩
        intro y _
        intro hy
        exact not_space_of_not_isHT hc hy.1
    · rw [skipH]
      by_cases hc : isHT c
      · rw [if_pos hc]
        exact ih.2
      · rw [if_neg hc]
        refine List.chain'_cons'.2 ⟨?_, ?_⟩
        · intro y hy
          have hyc : c = y := by simpa using hy
          intro hcon
          exact not_space_of_not_isHT hc (hyc.trans hcon.2)
        · refine List.chain'_cons'.2 ⟨?_, ih.1⟩
          intro y _
          intro hy
          exact not_space_of_not_isHT hc hy.1

/-- The newline pass keeps the head character. -/
theorem head_collapseN : ∀ l : List Char, (collapseN l).head? = l.head? := by
  intro l
  cases l with
  | nil => rfl
  | cons c cs =>
    rw [collapseN]
    by_cases hc : c == '\n'
    · rw [if_pos hc]
      have : c = '\n' := by simpa using hc
      rw [this]
      rfl
    · rw [if_neg hc]
      rfl

/-- The newline pass leaves no two adjacent newlines. -/
theorem collapseN_noRun : ∀ l : List Char,
    NoRun '\n' (collapseN l) ∧ NoRun '\n' ('\n' :: skipN l) := by
  intro l
  induction l with
  | nil => exact ⟨by simp [collapseN, NoRun], by simp [skipN, NoRun]⟩
  | cons c cs ih =>
    constructor
    · rw [collapseN]
      by_cases hc : c == '\n'
      · rw [if_pos hc]
        exact ih.2
      · rw [if_neg hc]
        refine List.chain'_cons'.2 ⟨?_, ih.1⟩
        intro y _ hcon
        exact (by simpa using hc : ¬ c = '\n') hcon.1
    · rw [skipN]
      by_cases hc : c == '\n'
      · rw [if_pos hc]
        exact ih.2
      · rw [if_neg hc]
        refine List.chain'_cons'.2 ⟨?_, ?_⟩
        · intro y hy hcon
          have hyc : c = y := by simpa using hy
          exact (by simpa using hc : ¬ c = '\n') (hyc.trans hcon.2)
        · refine List.chain'_cons'.2 ⟨?_, ih.1⟩
          intro y _ hcon
          exact (by simpa using hc : ¬ c = '\n') hcon.1

/-- The newline pass preserves any adjacency relation that holds out of a
newline. -/
theorem collapseN_preserve (R : Char → Char → Prop) (hnl : ∀ b, R '\n' b) :
    ∀ l : List Char, List.Chain' R l →
      List.Chain' R (collapseN l) ∧ List.Chain' R ('\n' :: skipN l) := by
  intro l
  induction l with
  | nil => exact fun _ => ⟨by simp [collapseN], by simp [skipN]⟩
  | cons c cs ih =>
    intro h
    have htail : List.Chain' R cs := h.tail
    have hrel : ∀ y ∈ cs.head?, R c y := (List.chain'_cons'.1 h).1
    constructor
    · rw [collapseN]
      by_cases hc : c == '\n'
      · rw [if_pos hc]
        exact (ih htail).2
      · rw [if_neg hc]
        refine List.chain'_cons'.2 ⟨?_, (ih htail).1⟩
        intro y hy
        exact hrel y (head_collapseN cs ▸ hy)
    · rw [skipN]
      by_cases hc : c == '\n'
      · rw [if_pos hc]
        exact (ih htail).2
      · rw [if_neg hc]
        refine List.chain'_cons'.2 ⟨fun y _ => hnl y, ?_⟩
        refine List.chain'_cons'.2 ⟨?_, (ih htail).1⟩
        intro y hy
        exact hrel y (head_collapseN cs ▸ hy)

/-- The newline pass only removes characters. -/
theorem collapseN_subset : ∀ l : List Char,
    (∀ a ∈ collapseN l, a ∈ l) ∧ (∀ a ∈ skipN l, a ∈ l) := by
  intro l
  induction l with
  | nil => exact ⟨by simp [collapseN], by simp [skipN]⟩
  | cons c cs ih =>
    constructor
    · intro a ha
      rw [collapseN] at ha
      by_cases hc : c == '\n'
      · rw [if_pos hc] at ha
        rcases List.mem_cons.1 ha with rfl | ha
        · have : c = '\n' := by simpa using hc
          rw [this]
          exact List.mem_cons_self _ _
        · exact List.mem_cons_of_mem _ (ih.2 a ha)
      · rw [if_neg hc] at ha
        rcases List.mem_cons.1 ha with rfl | ha
        · exact List.mem_cons_self _ _
        · exact List.mem_cons_of_mem _ (ih.1 a ha)
    · intro a ha
      rw [skipN] at ha
      by_cases hc : c == '\n'
      · rw [if_pos hc] at ha
        exact List.mem_cons_of_mem _ (ih.2 a ha)
      · rw [if_neg hc] at ha
        rcases List.mem_cons.1 ha with rfl | ha
        · exact List.mem_cons_self _ _
        · exact List.mem_cons_of_mem _ (ih.1 a ha)

/-- `dropWhile` preserves adjacency relations. -/
theorem chain'_dropWhile (R : Char → Char → Prop) (p : Char → Bool) :
    ∀ l : List Char, List.Chain' R l → List.Chain' R (l.dropWhile p) := by
  intro l
  induction l with
  | nil => intro h; exact h
  | cons c cs ih =>
    intro h
    rw [List.dropWhile_cons]
    by_cases hc : p c
    · rw [if_pos hc]
      exact ih h.tail
    · rw [if_neg hc]
      exact h

/-- Reversal preserves symmetric adjacency relations. -/
theorem chain'_reverse_of (R : Char → Char → Prop) (hsym : ∀ a b, R a b → R b a)
    (l : List Char) (h : List.Chain' R l) : List.Chain' R l.reverse := by
  rw [List.chain'_reverse]
  exact h.imp fun {a b} hab => hsym a b hab

/-- Stripping preserves symmetric adjacency relations. -/
theorem pyStrip_chain (R : Char → Char → Prop) (hsym : ∀ a b, R a b → R b a)
    (l : List Char) (h : List.Chain' R l) : List.Chain' R (pyStrip l) := by
  unfold pyStrip
  exact chain'_reverse_of R hsym _ (chain'_dropWhile R isPyWs _
    (chain'_reverse_of R hsym _ (chain'_dropWhile R isPyWs _ h)))

/-- Stripping only removes characters. -/
theorem pyStrip_subset (l : List Char) : ∀ a ∈ pyStrip l, a ∈ l := by
  intro a ha
  unfold pyStrip at ha
  rw [List.mem_reverse] at ha
  have h2 := (List.dropWhile_sublist _).subset ha
  rw [List.mem_reverse] at h2
  exact (List.dropWhile_sublist _).subset h2

/-- A stripped list does not start with whitespace. -/
theorem pyStrip_head (l : List Char) (c : Char) (h : (pyStrip l).head? = some c) :
    isPyWs c = false := by
  unfold pyStrip at h
  rw [List.head?_reverse] at h
  have hne : ((l.dropWhile isPyWs).reverse.dropWhile isPyWs) ≠ [] := by
    intro he
    rw [he] at h
    simp at h
  rw [getLast_dropWhile isPyWs _ hne, List.getLast?_reverse] at h
  exact head_dropWhile isPyWs l c h

/-- A stripped list does not end with whitespace. -/
theorem pyStrip_last (l : List Char) (c : Char) (h : (pyStrip l).getLast? = some c) :
    isPyWs c = false := by
  unfold pyStrip at h
  rw [List.getLast?_reverse] at h
  exact head_dropWhile isPyWs _ c h

/-- The normalization tail of `clean_html` produces text with no tab, no two
adjacent spaces, no two adjacent newlines, and no leading or trailing
whitespace. -/
theorem normalizeText_props (s : String) :
    '\t' ∉ (normalizeText s).data ∧
    NoRun ' ' (normalizeText s).data ∧
    NoRun '\n' (normalizeText s).data ∧
    (∀ c, (normalizeText s).data.head? = some c → isPyWs c = false) ∧
    (∀ c, (normalizeText s).data.getLast? = some c → isPyWs c = false) := by
  have hdata : (normalizeText s).data = pyStrip (collapseN (collapseH s.data)) := rfl
  refine ⟨?_, ?_, ?_, ?_, ?_⟩
  · rw [hdata]
    intro hm
    exact (collapseH_no_tab s.data).1
      ((collapseN_subset _).1 _ (pyStrip_subset _ _ hm))
  · rw [hdata]
    exact pyStrip_chain _ (fun a b hab h2 => hab ⟨h2.2, h2.1⟩) _
      ((collapseN_preserve _ (fun b hcon => absurd hcon.1 (by decide)) _
        (collapseH_noRun s.data).1).1)
  · rw [hdata]
    exact pyStrip_chain _ (fun a b hab h2 => hab ⟨h2.2, h2.1⟩) _ (collapseN_noRun _).1
  · rw [hdata]
    intro c h
    exact pyStrip_head _ c h
  · rw [hdata]
    intro c h
    exact pyStrip_last _ c h

/-- Texts of an optional tree. -/
def optTexts : Option Node → List String
  | none => []
  | some n => texts n

mutual

/-- Decomposing script/style/noscript subtrees leaves exactly the text
nodes outside them: `get_text` after `decompose` sees `goodTexts`. -/
theorem strip_texts : (n : Node) → optTexts (stripBad n) = goodTexts n
  | .text _ => rfl
  | .elem t cs => by
    rw [stripBad, goodTexts]
    by_cases h : t ∈ badTags
    · rw [if_pos h, if_pos h]
      rfl
    · rw [if_neg h, if_neg h]
      show texts (.elem t (stripBadList cs)) = goodTextsList cs
      rw [texts]
      exact strip_textsList cs

/-- Forest version of `strip_texts`. -/
theorem strip_textsList : (l : List Node) → textsList (stripBadList l) = goodTextsList l
  | [] => rfl
  | n :: ns => by
    rw [stripBadList, goodTextsList]
    cases h : stripBad n with
    | none =>
      have hn := strip_texts n
      rw [h] at hn
      rw [List.nil_append, ← hn]
      show textsList (stripBadList ns) = [] ++ goodTextsList ns
      rw [List.nil_append]
      exact strip_textsList ns
    | some m =>
      have hn := strip_texts n
      rw [h] at hn
      rw [List.singleton_append, textsList]
      rw [show (texts m : List String) = goodTexts n from hn]
      exact congrArg _ (strip_textsList ns)

end

/-- C7: the normalizer's output properties (src/checker.py lines 31-43): a
selector that matches nothing yields the empty string; otherwise text is
extracted only from outside script/style/noscript subtrees, every run of
horizontal whitespace is collapsed (no tab survives, no two adjacent
spaces), every run of newlines is collapsed (no two adjacent newlines, so no
empty line survives between content lines), and the result has no leading or
trailing whitespace. -/
theorem clean_html_normalization (sel : Option (Node → Bool)) (doc : Node) :
    (∀ p, sel = some p → selectIn p doc = none → clean_html sel doc = "") ∧
    '\t' ∉ (clean_html sel doc).data ∧
    NoRun ' ' (clean_html sel doc).data ∧
    NoRun '\n' (clean_html sel doc).data ∧
    (∀ c, (clean_html sel doc).data.head? = some c → isPyWs c = false) ∧
    (∀ c, (clean_html sel doc).data.getLast? = some c → isPyWs c = false) ∧
    (∀ n : Node, optTexts (stripBad n) = goodTexts n) := by
  have hmiss : ∀ p, sel = some p → selectIn p doc = none → clean_html sel doc = "" := by
    rintro p rfl hnone
    simp [clean_html, hnone]
  have hform : clean_html sel doc = "" ∨ ∃ s, clean_html sel doc = normalizeText s := by
    rcases sel with _ | p
    · exact Or.inr ⟨_, rfl⟩
    · cases hsel : selectIn p doc with
      | none => exact Or.inl (by simp [clean_html, hsel])
      | some t => exact Or.inr ⟨joinTexts (stripBad t), by simp [clean_html, hsel]⟩
  refine ⟨hmiss, ?_, ?_, ?_, ?_, ?_, strip_texts⟩ <;>
    rcases hform with h0 | ⟨s, hs⟩
  · rw [h0]
    simp
  · rw [hs]
    exact (normalizeText_props s).1
  · rw [h0]
    simp [NoRun]
  · rw [hs]
    exact (normalizeText_props s).2.1
  · rw [h0]
    simp [NoRun]
  · rw [hs]
    exact (normalizeText_props s).2.2.1
  · rw [h0]
    intro c hc
    simp at hc
  · rw [hs]
    exact (normalizeText_props s).2.2.2.1
  · rw [h0]
    intro c hc
    simp at hc
  · rw [hs]
    exact (normalizeText_props s).2.2.2.2

/-- A selector predicate matching nothing. -/
def selNone : Node → Bool := fun _ => false

/-- A small document: a paragraph and a script element. -/
def docW : Node :=
  Node.elem "[document]"
    [Node.elem "p" [Node.text "hi  there"], Node.elem "script" [Node.text "evil()"]]

/-- Witness for C7: a selector that matches nothing produces the empty
normalized text. -/
theorem clean_html_normalization_witness : clean_html (some selNone) docW = "" :=
  (clean_html_normalization (some selNone) docW).1 selNone rfl rfl

end PageWatcher
